import Mathlib

/-
Shallow embedding of
src/RegistrationForm/smart-form-ninja-main/src/components/InteractiveForm.tsx
(two React components: `InteractiveForm`, the single-page registration form,
and `MultiStepForm`, the three-step wizard).  Strings are Lean `String`s
(lists of characters); JS regular-expression character classes are embedded
as executable character predicates, and the one non-trivial regex (the email
pattern) is embedded as an executable matcher together with a declarative
language predicate proved equivalent to it.
-/

/-- The ECMAScript `\s` character class (WhiteSpace ∪ LineTerminator). -/
def isJsWhitespace (c : Char) : Bool :=
  c = ' ' || c = '\t' || c = '\n' || c = '\r' || c = '\x0b' || c = '\x0c' ||
  c = '\u00a0' || c = '\u1680' || (0x2000 ≤ c.toNat && c.toNat ≤ 0x200a) ||
  c = '\u2028' || c = '\u2029' || c = '\u202f' || c = '\u205f' ||
  c = '\u3000' || c = '\ufeff'

/-- The regex class `[A-Z]`. -/
def isUpperAZ (c : Char) : Bool := 'A' ≤ c && c ≤ 'Z'

/-- The regex class `[a-z]`. -/
def isLowerAZ (c : Char) : Bool := 'a' ≤ c && c ≤ 'z'

/-- The regex class `[0-9]` (also `\d` without the unicode flag). -/
def isDigit09 (c : Char) : Bool := '0' ≤ c && c ≤ '9'

/-- The regex class `[!@#$%^&*]` used by both password policies. -/
def isSymbolChar (c : Char) : Bool :=
  c = '!' || c = '@' || c = '#' || c = '$' || c = '%' || c = '^' || c = '&' || c = '*'

/-- `/[c]/.test(s)` for a single character class: some character matches. -/
def hasChar (p : Char → Bool) (s : String) : Bool := s.data.any p

/-- JS `String.prototype.trim`: strip leading and trailing `\s` characters. -/
def jsTrim (s : String) : String :=
  String.mk (((s.data.dropWhile isJsWhitespace).reverse.dropWhile isJsWhitespace).reverse)

/-- `phone.replace(/\D/g, "").length`: the number of digit characters. -/
def digitCount (s : String) : Nat := (s.data.filter isDigit09).length

/-- A character admitted by `[^\s@]` in the email regex. -/
def emailAtomChar (c : Char) : Bool := !isJsWhitespace c && c != '@'

/-- Does the list contain a `'.'` at some position other than the last? -/
def hasDotNotLast : List Char → Bool
  | [] => false
  | [_] => false
  | c :: c2 :: rest => c == '.' || hasDotNotLast (c2 :: rest)

/-- After the `'@'`, the regex demands `[^\s@]+\.[^\s@]+`: at least one
character, then a `'.'` that is neither the first nor the last character
of the tail (all characters being atoms is checked separately). -/
def matchDomainDot : List Char → Bool
  | [] => false
  | _ :: rest => hasDotNotLast rest

/-- Executable matcher for `/^[^\s@]+@[^\s@]+\.[^\s@]+$/`.  Since `[^\s@]`
excludes `'@'`, any match places the unique `'@'` at the first `'@'` of the
string, so the matcher splits there. -/
def emailRegexTest (s : String) : Bool :=
  match s.data.dropWhile (fun c => c != '@') with
  | [] => false
  | _ :: ds =>
    !(s.data.takeWhile (fun c => c != '@')).isEmpty &&
    (s.data.takeWhile (fun c => c != '@')).all emailAtomChar &&
    ds.all emailAtomChar && matchDomainDot ds

/-- The language of `/^[^\s@]+@[^\s@]+\.[^\s@]+$/`, written as the regex
reads: a non-empty atom block, `'@'`, a non-empty atom block, `'.'`, a
non-empty atom block. -/
def EmailRegexLang (s : String) : Prop :=
  ∃ l m t : List Char,
    s.data = l ++ '@' :: (m ++ '.' :: t) ∧ l ≠ [] ∧ m ≠ [] ∧ t ≠ [] ∧
    l.all emailAtomChar = true ∧ m.all emailAtomChar = true ∧ t.all emailAtomChar = true

namespace InteractiveForm

/-- `validateName` from the single-page form. -/
def validateName (name : String) : Option String :=
  if jsTrim name = "" then some "Name is required"
  else if (jsTrim name).length < 2 then some "Name must be at least 2 characters"
  else if !(name.data ≠ [] && name.data.all fun c => isLowerAZ c || isUpperAZ c || isJsWhitespace c) then
    some "Name can only contain letters and spaces"
  else none

/-- `validateEmail` from the single-page form. -/
def validateEmail (email : String) : Option String :=
  if jsTrim email = "" then some "Email is required"
  else if !emailRegexTest email then some "Please enter a valid email address"
  else none

/-- `validatePhone` from the single-page form. -/
def validatePhone (phone : String) : Option String :=
  if jsTrim phone = "" then some "Phone number is required"
  else if !(phone.data ≠ [] && phone.data.all fun c =>
      isDigit09 c || isJsWhitespace c || c = '-' || c = '+' || c = '(' || c = ')') then
    some "Please enter a valid phone number"
  else if digitCount phone < 10 then some "Phone number must be at least 10 digits"
  else none

/-- `validatePassword` from the single-page form (the strict policy). -/
def validatePassword (password : String) : Option String :=
  if password = "" then some "Password is required"
  else if password.length < 8 then some "Password must be at least 8 characters"
  else if !hasChar isUpperAZ password then some "Password must contain an uppercase letter"
  else if !hasChar isLowerAZ password then some "Password must contain a lowercase letter"
  else if !hasChar isDigit09 password then some "Password must contain a number"
  else if !hasChar isSymbolChar password then
    some "Password must contain a special character (!@#$%^&*)"
  else none

/-- `calculatePasswordStrength` from the single-page form (strict weights),
written as the source's sequence of guarded additions. -/
def calculatePasswordStrength (password : String) : Nat :=
  let strength := 0
  let strength := if 8 ≤ password.length then strength + 20 else strength
  let strength := if 12 ≤ password.length then strength + 20 else strength
  let strength := if hasChar isUpperAZ password then strength + 20 else strength
  let strength := if hasChar isLowerAZ password then strength + 20 else strength
  let strength := if hasChar isDigit09 password then strength + 10 else strength
  let strength := if hasChar isSymbolChar password then strength + 10 else strength
  strength

/-- `getPasswordStrengthLabel`, as a function of the stored strength. -/
def getPasswordStrengthLabel (passwordStrength : Nat) : String :=
  if passwordStrength < 40 then "Weak"
  else if passwordStrength < 70 then "Medium"
  else "Strong"

/-- `getPasswordStrengthColor`, as a function of the stored strength. -/
def getPasswordStrengthColor (passwordStrength : Nat) : String :=
  if passwordStrength < 40 then "bg-destructive"
  else if passwordStrength < 70 then "bg-yellow-500"
  else "bg-success"

/-- The `FormData` record of the single-page form. -/
structure FormData where
  name : String
  email : String
  phone : String
  password : String
deriving DecidableEq

/-- The `FormErrors` record; an absent property is `none`. -/
structure FormErrors where
  name : Option String
  email : Option String
  phone : Option String
  password : Option String
deriving DecidableEq

/-- The `TouchedFields` record. -/
structure TouchedFields where
  name : Bool
  email : Bool
  phone : Bool
  password : Bool
deriving DecidableEq

/-- The component state of `InteractiveForm` (the rendering-only
`showPassword` flag is omitted: no handler reads it). -/
structure FormState where
  formData : FormData
  errors : FormErrors
  touched : TouchedFields
  isSubmitted : Bool
  passwordStrength : Nat
deriving DecidableEq

/-- The initial `useState` values. -/
def initState : FormState :=
  { formData := ⟨"", "", "", ""⟩
    errors := ⟨none, none, none, none⟩
    touched := ⟨false, false, false, false⟩
    isSubmitted := false
    passwordStrength := 0 }

/-- A field of the single-page form. -/
inductive Field
  | name | email | phone | password
deriving DecidableEq

/-- UI events handled by `InteractiveForm`. -/
inductive FormEvent
  | change (f : Field) (v : String)
  | blur (f : Field)
  | submit
  | reset
deriving DecidableEq

/-- The real-time validation `useEffect`: recompute the error map from the
current `formData`, gated per field by `touched`. -/
def validationEffect (s : FormState) : FormState :=
  { s with errors :=
    { name := if s.touched.name then validateName s.formData.name else none
      email := if s.touched.email then validateEmail s.formData.email else none
      phone := if s.touched.phone then validatePhone s.formData.phone else none
      password := if s.touched.password then validatePassword s.formData.password else none } }

/-- The password-strength `useEffect` (unconditional in this component). -/
def strengthEffect (s : FormState) : FormState :=
  { s with passwordStrength := calculatePasswordStrength s.formData.password }

/-- `handleInputChange(field)`. -/
def handleInputChange (f : Field) (v : String) (s : FormState) : FormState :=
  { s with formData :=
      match f with
      | .name => { s.formData with name := v }
      | .email => { s.formData with email := v }
      | .phone => { s.formData with phone := v }
      | .password => { s.formData with password := v } }

/-- `handleBlur(field)`. -/
def handleBlur (f : Field) (s : FormState) : FormState :=
  { s with touched :=
      match f with
      | .name => { s.touched with name := true }
      | .email => { s.touched with email := true }
      | .phone => { s.touched with phone := true }
      | .password => { s.touched with password := true } }

/-- `handleSubmit`: mark everything touched, validate all four fields, and
succeed exactly when no validator produced an error. -/
def handleSubmit (s : FormState) : FormState :=
  let newErrors : FormErrors :=
    { name := validateName s.formData.name
      email := validateEmail s.formData.email
      phone := validatePhone s.formData.phone
      password := validatePassword s.formData.password }
  let hasErrors := newErrors.name.isSome || newErrors.email.isSome ||
    newErrors.phone.isSome || newErrors.password.isSome
  let s1 := { s with touched := ⟨true, true, true, true⟩, errors := newErrors }
  if hasErrors then s1 else { s1 with isSubmitted := true }

/-- The "Submit Another Form" button on the success screen. -/
def handleReset (s : FormState) : FormState :=
  { s with isSubmitted := false
           formData := ⟨"", "", "", ""⟩
           touched := ⟨false, false, false, false⟩
           errors := ⟨none, none, none, none⟩ }

/-- One UI event: run the handler, then the two `useEffect`s (both are pure
recomputations of derived state, so running them unconditionally agrees
with React's dependency-gated runs). -/
def formStep (s : FormState) (e : FormEvent) : FormState :=
  let t := match e with
    | .change f v => handleInputChange f v s
    | .blur f => handleBlur f s
    | .submit => handleSubmit s
    | .reset => handleReset s
  strengthEffect (validationEffect t)

end InteractiveForm

namespace MultiStepForm

/-- The wizard's `FormData` record. -/
structure WizardFormData where
  email : String
  otp : String
  password : String
deriving DecidableEq

/-- The wizard's `FormErrors` record; an absent property is `none`. -/
structure WizardErrors where
  email : Option String
  otp : Option String
  password : Option String
deriving DecidableEq

/-- The `passwordRequirements` record. -/
structure PasswordRequirements where
  minLength : Bool
  hasNumber : Bool
  hasSymbol : Bool
deriving DecidableEq

/-- The component state of `MultiStepForm` (again omitting the
rendering-only `showPassword` flag). -/
structure WizardState where
  step : Nat
  formData : WizardFormData
  errors : WizardErrors
  isSubmitted : Bool
  passwordStrength : Nat
  passwordRequirements : PasswordRequirements
deriving DecidableEq

/-- The initial `useState` values. -/
def wizardInit : WizardState :=
  { step := 1
    formData := ⟨"", "", ""⟩
    errors := ⟨none, none, none⟩
    isSubmitted := false
    passwordStrength := 0
    passwordRequirements := ⟨false, false, false⟩ }

/-- `validateEmail` from the wizard (same body as the single-page one). -/
def validateEmail (email : String) : Option String :=
  if jsTrim email = "" then some "Email is required"
  else if !emailRegexTest email then some "Please enter a valid email address"
  else none

/-- `validateOTP` from the wizard. -/
def validateOTP (otp : String) : Option String :=
  if otp = "" then some "Verification code is required"
  else if otp.length ≠ 5 then some "Code must be 5 digits"
  else none

/-- `validatePassword` from the wizard (the relaxed policy). -/
def validatePassword (password : String) : Option String :=
  if password = "" then some "Password is required"
  else if password.length < 8 then some "Password must be at least 8 characters"
  else if !hasChar isDigit09 password then some "Password must contain a number"
  else if !hasChar isSymbolChar password then some "Password must contain a symbol"
  else none

/-- The `requirements` object built by the wizard's
`calculatePasswordStrength`. -/
def requirementsOf (password : String) : PasswordRequirements :=
  { minLength := decide (8 ≤ password.length)
    hasNumber := hasChar isDigit09 password
    hasSymbol := hasChar isSymbolChar password }

/-- The strength value computed by the wizard's
`calculatePasswordStrength` (relaxed weights). -/
def strengthOf (password : String) : Nat :=
  let requirements := requirementsOf password
  let strength := 0
  let strength := if requirements.minLength then strength + 40 else strength
  let strength := if requirements.hasNumber then strength + 30 else strength
  let strength := if requirements.hasSymbol then strength + 30 else strength
  strength

/-- The wizard's `calculatePasswordStrength`, which stores both the
requirement flags and the strength into component state. -/
def calculatePasswordStrength (password : String) (s : WizardState) : WizardState :=
  { s with passwordRequirements := requirementsOf password
           passwordStrength := strengthOf password }

/-- The wizard's strength `useEffect`: it recomputes only when the current
password is non-empty (`if (formData.password) { ... }`). -/
def passwordStrengthEffect (s : WizardState) : WizardState :=
  if s.formData.password = "" then s
  else calculatePasswordStrength s.formData.password s

/-- The color class of the wizard's strength bar (its Weak / Medium /
Strong banding): red below 40, yellow below 80, green otherwise. -/
def strengthBarColor (passwordStrength : Nat) : String :=
  if passwordStrength < 40 then "bg-destructive"
  else if passwordStrength < 80 then "bg-yellow-500"
  else "bg-success"

/-- `handleEmailSubmit`: advance to step 2 only when the email validates;
otherwise replace the error map with one holding only the email error. -/
def handleEmailSubmit (s : WizardState) : WizardState :=
  match validateEmail s.formData.email with
  | some emailError => { s with errors := { email := some emailError, otp := none, password := none } }
  | none => { s with errors := ⟨none, none, none⟩, step := 2 }

/-- `handleOTPSubmit`. -/
def handleOTPSubmit (s : WizardState) : WizardState :=
  match validateOTP s.formData.otp with
  | some otpError => { s with errors := { email := none, otp := some otpError, password := none } }
  | none => { s with errors := ⟨none, none, none⟩, step := 3 }

/-- `handlePasswordSubmit`. -/
def handlePasswordSubmit (s : WizardState) : WizardState :=
  match validatePassword s.formData.password with
  | some passwordError => { s with errors := { email := none, otp := none, password := some passwordError } }
  | none => { s with errors := ⟨none, none, none⟩, isSubmitted := true }

/-- `handleBack`: clear the error map and decrement the step. -/
def handleBack (s : WizardState) : WizardState :=
  { s with errors := ⟨none, none, none⟩, step := s.step - 1 }

/-- UI events handled by `MultiStepForm`. -/
inductive WizardEvent
  | setEmail (v : String)
  | setOtp (v : String)
  | setPassword (v : String)
  | emailSubmit
  | otpSubmit
  | passwordSubmit
  | back
  | wrongEmail
  | reset
deriving DecidableEq

/-- The event handlers, before effects. -/
def wizardHandle (s : WizardState) (e : WizardEvent) : WizardState :=
  match e with
  | .setEmail v => { s with formData := { s.formData with email := v } }
  | .setOtp v => { s with formData := { s.formData with otp := v } }
  | .setPassword v => { s with formData := { s.formData with password := v } }
  | .emailSubmit => handleEmailSubmit s
  | .otpSubmit => handleOTPSubmit s
  | .passwordSubmit => handlePasswordSubmit s
  | .back => handleBack s
  | .wrongEmail => { s with step := 1 }
  | .reset =>
    { s with isSubmitted := false, step := 1,
             formData := ⟨"", "", ""⟩, errors := ⟨none, none, none⟩ }

/-- One UI event: run the handler, then the strength `useEffect`, which
React re-runs exactly when its dependency `formData.password` changed. -/
def wizardStep (s : WizardState) (e : WizardEvent) : WizardState :=
  let t := wizardHandle s e
  if t.formData.password = s.formData.password then t else passwordStrengthEffect t

end MultiStepForm

/-- The `local@domain.tld` shape the specification describes for emails,
written from the spec's words: the string splits as local part, `'@'`,
domain part, `'.'`, tail, with all three parts non-empty, it contains no
whitespace, and it contains exactly one `'@'` (hence none in the domain
tail). -/
def SpecEmailShape (s : String) : Prop :=
  ∃ loc dom tld : List Char,
    s.data = loc ++ '@' :: (dom ++ '.' :: tld) ∧ loc ≠ [] ∧ dom ≠ [] ∧ tld ≠ [] ∧
    (∀ c ∈ s.data, isJsWhitespace c = false) ∧ s.data.count '@' = 1

/-- Run a list of (failure condition, reason) checks in order and return
the reason of the first check that fails. -/
def firstFailing : List ((String → Bool) × String) → String → Option String
  | [], _ => none
  | (check, reason) :: rest, p => if check p then some reason else firstFailing rest p

/-- The strict password policy's failure checks, in the order the
specification lists them: Required, TooShort, MissingUppercase,
MissingLowercase, MissingDigit, MissingSymbol. -/
def strictPasswordChecks : List ((String → Bool) × String) :=
  [ (fun p => p == "", "Password is required"),
    (fun p => decide (p.length < 8), "Password must be at least 8 characters"),
    (fun p => !hasChar isUpperAZ p, "Password must contain an uppercase letter"),
    (fun p => !hasChar isLowerAZ p, "Password must contain a lowercase letter"),
    (fun p => !hasChar isDigit09 p, "Password must contain a number"),
    (fun p => !hasChar isSymbolChar p, "Password must contain a special character (!@#$%^&*)") ]

/-- The purity invariant the wizard maintains for the stored strength:
whenever the current password is non-empty, the stored strength and the
stored requirement flags are the pure functions of that password. -/
def wizardStrengthInv (s : MultiStepForm.WizardState) : Prop :=
  s.formData.password ≠ "" →
    s.passwordStrength = MultiStepForm.strengthOf s.formData.password ∧
    s.passwordRequirements = MultiStepForm.requirementsOf s.formData.password

/-! ### Helper lemmas for the email regex embedding -/

theorem hasDotNotLast_iff (xs : List Char) :
    hasDotNotLast xs = true ↔ ∃ m t : List Char, xs = m ++ '.' :: t ∧ t ≠ [] := by
  induction xs with
  | nil =>
    constructor
    · intro h; simp [hasDotNotLast] at h
    · rintro ⟨m, t, h, ht⟩; cases m <;> simp at h
  | cons a as ih =>
    cases as with
    | nil =>
      constructor
      · intro h; simp [hasDotNotLast] at h
      · rintro ⟨m, t, h, ht⟩
        cases m with
        | nil =>
          simp at h
          exact absurd h.2 ht
        | cons b m' => simp at h
    | cons b bs =>
      constructor
      · intro h
        have h' : a = '.' ∨ hasDotNotLast (b :: bs) = true := by
          simpa using (show (a == '.' || hasDotNotLast (b :: bs)) = true from h)
        rcases h' with h' | h'
        · exact ⟨[], b :: bs, by simp [h'], by simp⟩
        · obtain ⟨m, t, heq, ht⟩ := ih.mp h'
          exact ⟨a :: m, t, by simp [heq], ht⟩
      · rintro ⟨m, t, heq, ht⟩
        show (a == '.' || hasDotNotLast (b :: bs)) = true
        cases m with
        | nil =>
          simp at heq
          simp [heq.1]
        | cons c m' =>
          simp at heq
          simp [ih.mpr ⟨m', t, heq.2, ht⟩]

theorem takeWhile_all_append {p : Char → Bool} :
    ∀ (l : List Char) (a : Char) (zs : List Char), (∀ c ∈ l, p c = true) → p a = false →
      (l ++ a :: zs).takeWhile p = l ∧ (l ++ a :: zs).dropWhile p = a :: zs := by
  intro l
  induction l with
  | nil =>
    intro a zs _ hpa
    simp [List.takeWhile_cons, List.dropWhile_cons, hpa]
  | cons x xs ih =>
    intro a zs hall hpa
    have hx : p x = true := hall x (List.mem_cons_self x xs)
    have h2 := ih a zs (fun c hc => hall c (List.mem_cons_of_mem _ hc)) hpa
    simp [List.takeWhile_cons, List.dropWhile_cons, hx, h2.1, h2.2]

theorem dropWhile_first {p : Char → Bool} :
    ∀ (cs : List Char) (c : Char) (rest : List Char), cs.dropWhile p = c :: rest → p c = false := by
  intro cs
  induction cs with
  | nil => intro c rest h; simp at h
  | cons a as ih =>
    intro c rest h
    rw [List.dropWhile_cons] at h
    split at h
    · exact ih c rest h
    · rename_i hpa
      injection h with h1 _
      subst h1
      simpa using hpa

theorem emailRegexTest_iff (s : String) : emailRegexTest s = true ↔ EmailRegexLang s := by
  constructor
  · intro h
    unfold emailRegexTest at h
    cases hdw : s.data.dropWhile (fun c => c != '@') with
    | nil => rw [hdw] at h; simp at h
    | cons a ds =>
      rw [hdw] at h
      simp only [Bool.and_eq_true, Bool.not_eq_true'] at h
      obtain ⟨⟨⟨hne, hl⟩, hds⟩, hdom⟩ := h
      have ha : (a != '@') = false := dropWhile_first s.data a ds hdw
      have ha' : a = '@' := by simpa using ha
      have hsplit : s.data = s.data.takeWhile (fun c => c != '@') ++ a :: ds := by
        conv_lhs => rw [← List.takeWhile_append_dropWhile (p := fun c => c != '@') (l := s.data)]
        rw [hdw]
      cases ds with
      | nil => simp [matchDomainDot] at hdom
      | cons d rest =>
        obtain ⟨m', t, hrest, ht⟩ := (hasDotNotLast_iff rest).mp (by simpa [matchDomainDot] using hdom)
        refine ⟨s.data.takeWhile (fun c => c != '@'), d :: m', t, ?_, ?_, by simp, ht, hl, ?_, ?_⟩
        · rw [ha', hrest] at hsplit; simpa using hsplit
        · simpa using hne
        · have := hds
          rw [hrest] at this
          simp only [List.all_cons, List.all_append, Bool.and_eq_true] at this ⊢
          exact ⟨this.1, this.2.1⟩
        · have := hds
          rw [hrest] at this
          simp only [List.all_cons, List.all_append, Bool.and_eq_true] at this
          exact this.2.2.2
  · rintro ⟨l, m, t, hs, hl, hm, ht, hal, ham, hat⟩
    have hpl : ∀ c ∈ l, (c != '@') = true := by
      intro c hc
      have := (List.all_eq_true.mp hal) c hc
      simp only [emailAtomChar, Bool.and_eq_true] at this
      exact this.2
    have hpa : (('@' : Char) != '@') = false := by decide
    have htw := takeWhile_all_append l '@' (m ++ '.' :: t) hpl hpa
    unfold emailRegexTest
    rw [hs, htw.2, htw.1]
    cases m with
    | nil => exact absurd rfl hm
    | cons c m' =>
      simp only [List.cons_append, matchDomainDot, Bool.and_eq_true]
      refine ⟨⟨⟨by simpa using hl, hal⟩, ?_⟩, ?_⟩
      · have : (c :: (m' ++ '.' :: t)).all emailAtomChar = true := by
          simp only [List.all_cons, List.all_append, Bool.and_eq_true] at ham hat ⊢
          exact ⟨ham.1, ham.2, by decide, hat⟩
        exact this
      · exact (hasDotNotLast_iff (m' ++ '.' :: t)).mpr ⟨m', t, rfl, ht⟩

theorem atom_of_mem_parts {c : Char} (hws : isJsWhitespace c = false) (hne : c ≠ '@') :
    emailAtomChar c = true := by
  simp only [emailAtomChar, Bool.and_eq_true, Bool.not_eq_true']
  exact ⟨hws, by simpa using hne⟩

theorem specEmailShape_iff (s : String) : SpecEmailShape s ↔ EmailRegexLang s := by
  constructor
  · rintro ⟨loc, dom, tld, hs, hloc, hdom, htld, hws, hcount⟩
    have hz : loc.count '@' = 0 ∧ dom.count '@' = 0 ∧ tld.count '@' = 0 := by
      rw [hs] at hcount
      simp only [List.count_append, List.count_cons_self,
        List.count_cons_of_ne (by decide : ('@' : Char) ≠ '.')] at hcount
      omega
    have hnl : '@' ∉ loc := List.count_eq_zero.mp hz.1
    have hnd : '@' ∉ dom := List.count_eq_zero.mp hz.2.1
    have hnt : '@' ∉ tld := List.count_eq_zero.mp hz.2.2
    refine ⟨loc, dom, tld, hs, hloc, hdom, htld, ?_, ?_, ?_⟩
    · refine List.all_eq_true.mpr fun c hc => atom_of_mem_parts (hws c ?_) ?_
      · rw [hs]; exact List.mem_append_left _ hc
      · intro he; exact hnl (he ▸ hc)
    · refine List.all_eq_true.mpr fun c hc => atom_of_mem_parts (hws c ?_) ?_
      · rw [hs]
        exact List.mem_append_right _ (List.mem_cons_of_mem _ (List.mem_append_left _ hc))
      · intro he; exact hnd (he ▸ hc)
    · refine List.all_eq_true.mpr fun c hc => atom_of_mem_parts (hws c ?_) ?_
      · rw [hs]
        exact List.mem_append_right _ (List.mem_cons_of_mem _
          (List.mem_append_right _ (List.mem_cons_of_mem _ hc)))
      · intro he; exact hnt (he ▸ hc)
  · rintro ⟨l, m, t, hs, hl, hm, ht, hal, ham, hat⟩
    have atomNoAt : ∀ (xs : List Char), xs.all emailAtomChar = true → '@' ∉ xs := by
      intro xs hxs hmem
      have := (List.all_eq_true.mp hxs) '@' hmem
      simp [emailAtomChar] at this
    have atomNoWs : ∀ (xs : List Char) (c : Char), xs.all emailAtomChar = true → c ∈ xs →
        isJsWhitespace c = false := by
      intro xs c hxs hmem
      have := (List.all_eq_true.mp hxs) c hmem
      simp only [emailAtomChar, Bool.and_eq_true, Bool.not_eq_true'] at this
      exact this.1
    refine ⟨l, m, t, hs, hl, hm, ht, ?_, ?_⟩
    · intro c hc
      rw [hs] at hc
      rcases List.mem_append.mp hc with hc | hc
      · exact atomNoWs l c hal hc
      · rcases List.mem_cons.mp hc with hc | hc
        · subst hc; decide
        · rcases List.mem_append.mp hc with hc | hc
          · exact atomNoWs m c ham hc
          · rcases List.mem_cons.mp hc with hc | hc
            · subst hc; decide
            · exact atomNoWs t c hat hc
    · rw [hs]
      simp only [List.count_append, List.count_cons_self,
        List.count_cons_of_ne (by decide : ('@' : Char) ≠ '.')]
      rw [List.count_eq_zero.mpr (atomNoAt l hal), List.count_eq_zero.mpr (atomNoAt m ham),
        List.count_eq_zero.mpr (atomNoAt t hat)]

/-- Claim C2: the strict `validatePassword` checks its conditions in the
fixed order Required, TooShort, MissingUppercase, MissingLowercase,
MissingDigit, MissingSymbol and returns the first failing reason only;
in particular `validatePassword "abcdefgh"` reports the missing
uppercase letter. -/
theorem strict_password_first_failing :
    (∀ p : String, InteractiveForm.validatePassword p = firstFailing strictPasswordChecks p) ∧
    InteractiveForm.validatePassword "abcdefgh" = some "Password must contain an uppercase letter" := by
  constructor
  · intro p
    simp only [InteractiveForm.validatePassword, strictPasswordChecks, firstFailing,
      beq_iff_eq, decide_eq_true_eq]
  · decide

/-- Claim C5: the strict strength scorer is additive over independent
sub-checks with weights 20/20/20/20/10/10, is bounded by 100,
scores "Abc12345!" at 80, and every score of at least 70 is labeled
"Strong" by the strict banding. -/
theorem strict_strength_weights :
    (∀ p : String, InteractiveForm.calculatePasswordStrength p =
      (if 8 ≤ p.length then 20 else 0) + (if 12 ≤ p.length then 20 else 0) +
      (if hasChar isUpperAZ p then 20 else 0) + (if hasChar isLowerAZ p then 20 else 0) +
      (if hasChar isDigit09 p then 10 else 0) + (if hasChar isSymbolChar p then 10 else 0)) ∧
    (∀ p : String, InteractiveForm.calculatePasswordStrength p ≤ 100) ∧
    InteractiveForm.calculatePasswordStrength "Abc12345!" = 80 ∧
    (∀ n : Nat, 70 ≤ n → InteractiveForm.getPasswordStrengthLabel n = "Strong") ∧
    InteractiveForm.getPasswordStrengthLabel
      (InteractiveForm.calculatePasswordStrength "Abc12345!") = "Strong" := by
  refine ⟨?_, ?_, by decide, ?_, by decide⟩
  · intro p
    simp only [InteractiveForm.calculatePasswordStrength]
    split_ifs <;> omega
  · intro p
    simp only [InteractiveForm.calculatePasswordStrength]
    split_ifs <;> omega
  · intro n hn
    unfold InteractiveForm.getPasswordStrengthLabel
    split_ifs <;> first | rfl | omega

/-- Claim C6: the relaxed strength scorer is additive with weights
40/30/30, never exceeds 100, scores "abcdefgh" at 40, and the wizard's
strength-bar banding is red ("Weak") below 40, yellow ("Medium") from 40
up to but excluding 80, and green ("Strong") from 80; in particular
"abcdefgh" lands in the yellow (Medium) band. -/
theorem relaxed_strength_weights :
    (∀ p : String, MultiStepForm.strengthOf p =
      (if 8 ≤ p.length then 40 else 0) + (if hasChar isDigit09 p then 30 else 0) +
      (if hasChar isSymbolChar p then 30 else 0)) ∧
    (∀ p : String, MultiStepForm.strengthOf p ≤ 100) ∧
    MultiStepForm.strengthOf "abcdefgh" = 40 ∧
    (∀ n : Nat, n < 40 → MultiStepForm.strengthBarColor n = "bg-destructive") ∧
    (∀ n : Nat, 40 ≤ n → n < 80 → MultiStepForm.strengthBarColor n = "bg-yellow-500") ∧
    (∀ n : Nat, 80 ≤ n → MultiStepForm.strengthBarColor n = "bg-success") ∧
    MultiStepForm.strengthBarColor (MultiStepForm.strengthOf "abcdefgh") = "bg-yellow-500" := by
  refine ⟨?_, ?_, by decide, ?_, ?_, ?_, by decide⟩
  · intro p
    simp only [MultiStepForm.strengthOf, MultiStepForm.requirementsOf, decide_eq_true_eq]
    split_ifs <;> omega
  · intro p
    simp only [MultiStepForm.strengthOf, MultiStepForm.requirementsOf, decide_eq_true_eq]
    split_ifs <;> omega
  · intro n hn
    unfold MultiStepForm.strengthBarColor
    split_ifs
    rfl
  · intro n hn hn2
    unfold MultiStepForm.strengthBarColor
    split_ifs <;> first | rfl | omega
  · intro n hn
    unfold MultiStepForm.strengthBarColor
    split_ifs <;> first | rfl | omega

/-- Claim C8: `validateOTP` returns the Required reason for the empty
string, the WrongLength reason for every other string whose length is not
5, and accepts every string of length exactly 5 regardless of its
characters (witnessed by a non-digit code). -/
theorem otp_checks_length_only :
    (∀ s : String, MultiStepForm.validateOTP s =
      if s = "" then some "Verification code is required"
      else if s.length = 5 then none
      else some "Code must be 5 digits") ∧
    MultiStepForm.validateOTP "ab!?x" = none ∧
    MultiStepForm.validateOTP "" = some "Verification code is required" ∧
    MultiStepForm.validateOTP "1234" = some "Code must be 5 digits" := by
  refine ⟨?_, by decide, by decide, by decide⟩
  intro s
  unfold MultiStepForm.validateOTP
  by_cases h0 : s = ""
  · simp [h0]
  · by_cases h5 : s.length = 5 <;> simp [h0, h5]

/-- Claim C3: on single-page submit, all four fields are validated
regardless of their touched state (the error map afterwards is the full
validator output and everything is marked touched), and `isSubmitted`
becomes true exactly when every one of the four validators returns no
error. -/
theorem submit_validates_all_fields (s : InteractiveForm.FormState)
    (hsub : s.isSubmitted = false) :
    (InteractiveForm.formStep s .submit).errors =
      ⟨InteractiveForm.validateName s.formData.name,
       InteractiveForm.validateEmail s.formData.email,
       InteractiveForm.validatePhone s.formData.phone,
       InteractiveForm.validatePassword s.formData.password⟩ ∧
    (InteractiveForm.formStep s .submit).touched = ⟨true, true, true, true⟩ ∧
    ((InteractiveForm.formStep s .submit).isSubmitted = true ↔
      (InteractiveForm.validateName s.formData.name = none ∧
       InteractiveForm.validateEmail s.formData.email = none ∧
       InteractiveForm.validatePhone s.formData.phone = none ∧
       InteractiveForm.validatePassword s.formData.password = none)) := by
  simp only [InteractiveForm.formStep, InteractiveForm.handleSubmit,
    InteractiveForm.validationEffect, InteractiveForm.strengthEffect]
  cases hn : InteractiveForm.validateName s.formData.name <;>
  cases he : InteractiveForm.validateEmail s.formData.email <;>
  cases hp : InteractiveForm.validatePhone s.formData.phone <;>
  cases hw : InteractiveForm.validatePassword s.formData.password <;>
  simp [hn, he, hp, hw, hsub]

theorem submit_validates_all_fields_witness :
    (InteractiveForm.formStep
      ⟨⟨"John Doe", "a@b.com", "+1 (555) 123-4567", "Abc12345!"⟩,
       ⟨none, none, none, none⟩, ⟨false, false, false, false⟩, false, 0⟩ .submit).isSubmitted
      = true := by
  have h := submit_validates_all_fields
    ⟨⟨"John Doe", "a@b.com", "+1 (555) 123-4567", "Abc12345!"⟩,
     ⟨none, none, none, none⟩, ⟨false, false, false, false⟩, false, 0⟩ rfl
  exact h.2.2.mpr ⟨by decide, by decide, by decide, by decide⟩

/-- Claim C4: submitting the wizard's email step with an invalid email
leaves the step at 1 (EmailEntry) and yields an error map populated
exactly at the email field; the step advances to 2 (OTPEntry) exactly
when `validateEmail` reports no error. -/
theorem wizard_email_step_gate (s : MultiStepForm.WizardState) (hstep : s.step = 1) :
    (MultiStepForm.validateEmail s.formData.email = none →
      (MultiStepForm.wizardStep s .emailSubmit).step = 2) ∧
    (∀ e : String, MultiStepForm.validateEmail s.formData.email = some e →
      (MultiStepForm.wizardStep s .emailSubmit).step = 1 ∧
      (MultiStepForm.wizardStep s .emailSubmit).errors = ⟨some e, none, none⟩) := by
  cases hv : MultiStepForm.validateEmail s.formData.email with
  | none =>
    refine ⟨fun _ => ?_, fun e he => by cases he⟩
    simp [MultiStepForm.wizardStep, MultiStepForm.wizardHandle,
      MultiStepForm.handleEmailSubmit, hv]
  | some msg =>
    refine ⟨fun h => (by cases h), fun e he => ?_⟩
    injection he with hmsg
    subst hmsg
    constructor
    · simp [MultiStepForm.wizardStep, MultiStepForm.wizardHandle,
        MultiStepForm.handleEmailSubmit, hv, hstep]
    · simp [MultiStepForm.wizardStep, MultiStepForm.wizardHandle,
        MultiStepForm.handleEmailSubmit, hv]

theorem wizard_email_step_gate_witness :
    (MultiStepForm.wizardStep
      ⟨1, ⟨"not-an-email", "", ""⟩, ⟨none, none, none⟩, false, 0, ⟨false, false, false⟩⟩
      .emailSubmit).step = 1 ∧
    (MultiStepForm.wizardStep
      ⟨1, ⟨"not-an-email", "", ""⟩, ⟨none, none, none⟩, false, 0, ⟨false, false, false⟩⟩
      .emailSubmit).errors = ⟨some "Please enter a valid email address", none, none⟩ :=
  (wizard_email_step_gate
    ⟨1, ⟨"not-an-email", "", ""⟩, ⟨none, none, none⟩, false, 0, ⟨false, false, false⟩⟩ rfl).2
    "Please enter a valid email address" (by decide)

/-- Claim C9: the wizard's back action from step 2 or step 3 decrements
the step by exactly one, clears all error descriptors, and leaves every
field value unchanged. -/
theorem wizard_back_frame (s : MultiStepForm.WizardState)
    (hstep : s.step = 2 ∨ s.step = 3) :
    (MultiStepForm.wizardStep s .back).step + 1 = s.step ∧
    (MultiStepForm.wizardStep s .back).errors = ⟨none, none, none⟩ ∧
    (MultiStepForm.wizardStep s .back).formData = s.formData := by
  refine ⟨?_, ?_, ?_⟩ <;>
    simp [MultiStepForm.wizardStep, MultiStepForm.wizardHandle, MultiStepForm.handleBack]
  rcases hstep with h | h <;> omega

theorem wizard_back_frame_witness :
    (MultiStepForm.wizardStep
      ⟨2, ⟨"a@b.com", "123", ""⟩, ⟨none, some "Code must be 5 digits", none⟩,
       false, 0, ⟨false, false, false⟩⟩ .back).step + 1 = 2 ∧
    (MultiStepForm.wizardStep
      ⟨2, ⟨"a@b.com", "123", ""⟩, ⟨none, some "Code must be 5 digits", none⟩,
       false, 0, ⟨false, false, false⟩⟩ .back).formData = ⟨"a@b.com", "123", ""⟩ := by
  have h := wizard_back_frame
    ⟨2, ⟨"a@b.com", "123", ""⟩, ⟨none, some "Code must be 5 digits", none⟩,
     false, 0, ⟨false, false, false⟩⟩ (Or.inl rfl)
  exact ⟨h.1, h.2.2⟩

/-- Claim C10: any password the strict `validatePassword` accepts scores
at least 80 on the strict strength scale, and therefore its strict label
is "Strong". -/
theorem strict_valid_password_is_strong (p : String)
    (h : InteractiveForm.validatePassword p = none) :
    80 ≤ InteractiveForm.calculatePasswordStrength p ∧
    InteractiveForm.getPasswordStrengthLabel
      (InteractiveForm.calculatePasswordStrength p) = "Strong" := by
  unfold InteractiveForm.validatePassword at h
  split_ifs at h with h1 h2 h3 h4 h5 h6
  simp only [Bool.not_eq_true'] at h3 h4 h5 h6
  have hs : 80 ≤ InteractiveForm.calculatePasswordStrength p := by
    simp only [InteractiveForm.calculatePasswordStrength]
    rw [Bool.not_eq_false] at h3 h4 h5 h6
    rw [if_pos (by omega : 8 ≤ p.length), if_pos h3, if_pos h4, if_pos h5, if_pos h6]
    split_ifs <;> omega
  refine ⟨hs, ?_⟩
  unfold InteractiveForm.getPasswordStrengthLabel
  split_ifs <;> first | rfl | omega

theorem strict_valid_password_is_strong_witness :
    80 ≤ InteractiveForm.calculatePasswordStrength "Abc12345!" ∧
    InteractiveForm.getPasswordStrengthLabel
      (InteractiveForm.calculatePasswordStrength "Abc12345!") = "Strong" :=
  strict_valid_password_is_strong "Abc12345!" (by decide)

theorem wizardStep_strengthInv (s : MultiStepForm.WizardState) (e : MultiStepForm.WizardEvent)
    (h : wizardStrengthInv s) : wizardStrengthInv (MultiStepForm.wizardStep s e) := by
  cases e with
  | setPassword v =>
    intro hne
    by_cases hsame : v = s.formData.password
    · subst hsame
      simp only [MultiStepForm.wizardStep, MultiStepForm.wizardHandle] at hne ⊢
      simp at hne ⊢
      exact h hne
    · by_cases hv : v = ""
      · subst hv
        refine absurd ?_ hne
        simp [MultiStepForm.wizardStep, MultiStepForm.wizardHandle, hsame,
          MultiStepForm.passwordStrengthEffect]
      · constructor <;>
          simp [MultiStepForm.wizardStep, MultiStepForm.wizardHandle, hsame,
            MultiStepForm.passwordStrengthEffect, MultiStepForm.calculatePasswordStrength, hv]
  | setEmail v =>
    intro hne
    simp only [MultiStepForm.wizardStep, MultiStepForm.wizardHandle] at hne ⊢
    simp at hne ⊢
    exact h hne
  | setOtp v =>
    intro hne
    simp only [MultiStepForm.wizardStep, MultiStepForm.wizardHandle] at hne ⊢
    simp at hne ⊢
    exact h hne
  | emailSubmit =>
    intro hne
    cases hv : MultiStepForm.validateEmail s.formData.email <;>
      (simp only [MultiStepForm.wizardStep, MultiStepForm.wizardHandle,
         MultiStepForm.handleEmailSubmit, hv] at hne ⊢
       simp at hne ⊢
       exact h hne)
  | otpSubmit =>
    intro hne
    cases hv : MultiStepForm.validateOTP s.formData.otp <;>
      (simp only [MultiStepForm.wizardStep, MultiStepForm.wizardHandle,
         MultiStepForm.handleOTPSubmit, hv] at hne ⊢
       simp at hne ⊢
       exact h hne)
  | passwordSubmit =>
    intro hne
    cases hv : MultiStepForm.validatePassword s.formData.password <;>
      (simp only [MultiStepForm.wizardStep, MultiStepForm.wizardHandle,
         MultiStepForm.handlePasswordSubmit, hv] at hne ⊢
       simp at hne ⊢
       exact h hne)
  | back =>
    intro hne
    simp only [MultiStepForm.wizardStep, MultiStepForm.wizardHandle,
      MultiStepForm.handleBack] at hne ⊢
    simp at hne ⊢
    exact h hne
  | wrongEmail =>
    intro hne
    simp only [MultiStepForm.wizardStep, MultiStepForm.wizardHandle] at hne ⊢
    simp at hne ⊢
    exact h hne
  | reset =>
    intro hne
    by_cases hemp : ("" : String) = s.formData.password <;>
      (refine absurd ?_ hne
       simp [MultiStepForm.wizardStep, MultiStepForm.wizardHandle, hemp,
         MultiStepForm.passwordStrengthEffect])

theorem wizardRun_strengthInv (es : List MultiStepForm.WizardEvent) :
    ∀ s : MultiStepForm.WizardState, wizardStrengthInv s →
      wizardStrengthInv (es.foldl MultiStepForm.wizardStep s) := by
  induction es with
  | nil => intro s h; exact h
  | cons e es ih => intro s h; exact ih _ (wizardStep_strengthInv s e h)

/-- Claim C1 (amended): for every event sequence, whenever the current
password is non-empty the stored strength and requirement flags equal the
pure score and flags of that password; the stored values for an empty
password are the previously computed ones (the effect skips empty
passwords), so they are not in general the score of the empty string. -/
theorem wizard_strength_pure_when_nonempty (es : List MultiStepForm.WizardEvent)
    (hne : (es.foldl MultiStepForm.wizardStep MultiStepForm.wizardInit).formData.password ≠ "") :
    (es.foldl MultiStepForm.wizardStep MultiStepForm.wizardInit).passwordStrength =
      MultiStepForm.strengthOf
        (es.foldl MultiStepForm.wizardStep MultiStepForm.wizardInit).formData.password ∧
    (es.foldl MultiStepForm.wizardStep MultiStepForm.wizardInit).passwordRequirements =
      MultiStepForm.requirementsOf
        (es.foldl MultiStepForm.wizardStep MultiStepForm.wizardInit).formData.password :=
  wizardRun_strengthInv es MultiStepForm.wizardInit (fun hinit => absurd rfl hinit) hne

theorem wizard_strength_pure_when_nonempty_witness :
    ([MultiStepForm.WizardEvent.setPassword "aaaaaaaa"].foldl MultiStepForm.wizardStep
        MultiStepForm.wizardInit).formData.password ≠ "" ∧
    ([MultiStepForm.WizardEvent.setPassword "aaaaaaaa"].foldl MultiStepForm.wizardStep
        MultiStepForm.wizardInit).passwordStrength =
      MultiStepForm.strengthOf
        ([MultiStepForm.WizardEvent.setPassword "aaaaaaaa"].foldl MultiStepForm.wizardStep
          MultiStepForm.wizardInit).formData.password :=
  ⟨by decide,
   (wizard_strength_pure_when_nonempty
     [MultiStepForm.WizardEvent.setPassword "aaaaaaaa"] (by decide)).1⟩

/-- Claim C1 fails as stated for the empty password: after setting the
password to "aaaaaaaa" (stored strength 40) and then clearing it, the
stored strength remains 40, while the score computed from the current
(empty) password value alone is 0. -/
theorem wizard_strength_stale_on_empty :
    ([MultiStepForm.WizardEvent.setPassword "aaaaaaaa",
      MultiStepForm.WizardEvent.setPassword ""].foldl MultiStepForm.wizardStep
        MultiStepForm.wizardInit).formData.password = "" ∧
    ([MultiStepForm.WizardEvent.setPassword "aaaaaaaa",
      MultiStepForm.WizardEvent.setPassword ""].foldl MultiStepForm.wizardStep
        MultiStepForm.wizardInit).passwordStrength = 40 ∧
    MultiStepForm.strengthOf "" = 0 ∧
    ([MultiStepForm.WizardEvent.setPassword "aaaaaaaa",
      MultiStepForm.WizardEvent.setPassword ""].foldl MultiStepForm.wizardStep
        MultiStepForm.wizardInit).passwordStrength ≠
      MultiStepForm.strengthOf
        ([MultiStepForm.WizardEvent.setPassword "aaaaaaaa",
          MultiStepForm.WizardEvent.setPassword ""].foldl MultiStepForm.wizardStep
            MultiStepForm.wizardInit).formData.password := by
  refine ⟨by decide, by decide, by decide, by decide⟩

/-- Claim C7: `validateEmail` returns the Required reason exactly when the
trimmed value is empty; otherwise it returns the InvalidFormat reason
exactly when the value does not have the basic `local@domain.tld` shape
(non-empty local part, exactly one `'@'`, a `'.'` in the domain part with
at least one character on each side, no whitespace); in particular
"a@b.com" is valid and "not-an-email" is InvalidFormat. -/
theorem email_validated_by_shape :
    (∀ s : String, (InteractiveForm.validateEmail s = some "Email is required" ↔ jsTrim s = "")) ∧
    (∀ s : String, jsTrim s ≠ "" →
      (InteractiveForm.validateEmail s = some "Please enter a valid email address" ↔
        ¬ SpecEmailShape s)) ∧
    InteractiveForm.validateEmail "a@b.com" = none ∧
    InteractiveForm.validateEmail "not-an-email" = some "Please enter a valid email address" ∧
    InteractiveForm.validateEmail "" = some "Email is required" := by
  refine ⟨?_, ?_, by decide, by decide, by decide⟩
  · intro s
    unfold InteractiveForm.validateEmail
    by_cases h0 : jsTrim s = ""
    · simp [h0]
    · by_cases ht : emailRegexTest s <;> simp [h0, ht]
  · intro s h0
    unfold InteractiveForm.validateEmail
    rw [if_neg h0]
    constructor
    · intro h hshape
      have htest := (emailRegexTest_iff s).mpr ((specEmailShape_iff s).mp hshape)
      simp [htest] at h
    · intro hns
      have htest : emailRegexTest s = false := by
        cases htest : emailRegexTest s
        · rfl
        · exact absurd ((specEmailShape_iff s).mpr ((emailRegexTest_iff s).mp htest)) hns
      simp [htest]

theorem email_validated_by_shape_witness :
    jsTrim "not-an-email" ≠ "" ∧ ¬ SpecEmailShape "not-an-email" :=
  ⟨by decide,
   (email_validated_by_shape.2.1 "not-an-email" (by decide)).mp (by decide)⟩
